import Mathlib

/-!
Verification of the two-tank Luenberger-style observer
(`pymoskito/examples/tanksystem/classes/Observer.h`).

The repository ships only the abstract C++ interface: a class `Observer`
with a protected field `double dSampleTime = 0.0;` and three pure virtual
operations `setInitialState`, `setGain` and `compute`.  The bodies of the
operations are not part of the sources, so the behavioural model below is
written from the specification's algorithm (explicit-Euler observer update
with measurement correction, §4.1 steps 1-5, together with the error and
atomicity semantics of §7).  Double-precision scalars are modelled as
exact rationals `ℚ`; the claims under study are algebraic identities, not
rounding statements.
-/

namespace TankObserver

/-- The fixed state dimension of the two-tank model: 2 states. -/
def stateDim : Nat := 2

/-- Error conditions of the observer contract (spec §7): `InvalidArgument`
for a gain or initial-state vector whose length does not match the state
dimension, `UninitializedState` for `compute` before `setInitialState`. -/
inductive ObsError where
  | UninitializedState : ObsError
  | InvalidArgument : ObsError
deriving DecidableEq, Repr

/-- Modelled from the spec: the observer object of `Observer.h`.  The header
declares the protected field `dSampleTime` (defaulted to `0.0`); the spec
adds the stored gain vector and the stored estimate, the estimate being
absent (`none`) in the Uninitialized state and present (`some`) in the
Ready state. -/
structure Observer where
  dSampleTime : ℚ
  gain : List ℚ
  estimate : Option (List ℚ)
deriving DecidableEq, Repr

/-- A freshly constructed `Observer`: the header initialises
`dSampleTime = 0.0`; no initial state has been set, and the stored gain
defaults to the zero vector (open loop). -/
def Observer.new : Observer :=
  { dSampleTime := 0, gain := List.replicate stateDim 0, estimate := none }

/-- Modelled from the spec: `Observer::setInitialState`.  Sets the internal
estimate to the given vector; precondition is that the length matches the
state dimension, otherwise the call fails with `InvalidArgument` and the
observer is left untouched. -/
def setInitialState (o : Observer) (dInitialState : List ℚ) :
    Except ObsError Observer :=
  if dInitialState.length = stateDim then
    .ok { o with estimate := some dInitialState }
  else
    .error .InvalidArgument

/-- Modelled from the spec: `Observer::setGain`.  Stores the observation
gain used to weight the innovation; a vector of the wrong length fails
with `InvalidArgument` and leaves the observer untouched. -/
def setGain (o : Observer) (dGain : List ℚ) : Except ObsError Observer :=
  if dGain.length = stateDim then
    .ok { o with gain := dGain }
  else
    .error .InvalidArgument

/-- Corrected derivative (spec §4.1 step 3): add `gain[i] * e` to each
state channel's derivative. -/
def correctedDerivative (deriv gain : List ℚ) (e : ℚ) : List ℚ :=
  List.zipWith (fun d g => d + g * e) deriv gain

/-- One explicit-Euler step (spec §4.1 step 4):
`newState[i] = oldState[i] + sampleTime * correctedDerivative[i]`. -/
def eulerStep (oldState corrected : List ℚ) (sampleTime : ℚ) : List ℚ :=
  List.zipWith (fun x d => x + sampleTime * d) oldState corrected

/-- Modelled from the spec: `Observer::compute`.  The continuous-time plant
derivative is the pluggable function `f` of (state, input).  On a Ready
observer the call computes the innovation
`e = measuredHeightTank1 - estimatedHeightTank1`, corrects the plant
derivative by `gain[i] * e`, integrates one explicit-Euler step, stores the
result as the new internal estimate and returns it.  On an Uninitialized
observer the call fails with `UninitializedState`. -/
def compute (f : List ℚ → ℚ → List ℚ) (o : Observer) (dhT1 dUA : ℚ) :
    Except ObsError (List ℚ × Observer) :=
  match o.estimate with
  | none => .error .UninitializedState
  | some x =>
      let e := dhT1 - x.headD 0
      let newState := eulerStep x (correctedDerivative (f x dUA) o.gain e) o.dSampleTime
      .ok (newState, { o with estimate := some newState })

/-- The three operations declared in the public interface of `Observer.h`,
with exactly the arguments their C++ signatures carry: none of them takes
a sample-time argument. -/
inductive Op where
  | opSetInitialState (dInitialState : List ℚ) : Op
  | opSetGain (dGain : List ℚ) : Op
  | opCompute (dhT1 dUA : ℚ) : Op
deriving DecidableEq, Repr

/-- The observer resulting from one interface call, or the error the call
fails with. -/
def opResult (f : List ℚ → ℚ → List ℚ) (o : Observer) : Op → Except ObsError Observer
  | .opSetInitialState v => setInitialState o v
  | .opSetGain v => setGain o v
  | .opCompute m u => (compute f o m u).map (fun r => r.2)

/-- Apply one interface operation to an observer.  A failing call leaves
the observer exactly as it was (spec §7: no partial-failure semantics). -/
def applyOp (f : List ℚ → ℚ → List ℚ) (o : Observer) (op : Op) : Observer :=
  match opResult f o op with
  | .ok o2 => o2
  | .error _ => o

/-- Apply a sequence of interface operations from left to right. -/
def applyOps (f : List ℚ → ℚ → List ℚ) (o : Observer) : List Op → Observer
  | [] => o
  | op :: rest => applyOps f (applyOp f o op) rest

/-- Open-loop explicit-Euler integration of the plant model: one step with
no measurement correction at all. -/
def openLoopEulerStep (f : List ℚ → ℚ → List ℚ) (x : List ℚ) (u T : ℚ) :
    List ℚ :=
  List.zipWith (fun xi d => xi + T * d) x (f x u)

/-- Run a freshly constructed observer, configured with the given sample
time, gain and initial state, over a sequence of (measurement, input)
pairs, collecting the estimate returned at each step. -/
def runSequence (f : List ℚ → ℚ → List ℚ) (o : Observer)
    : List (ℚ × ℚ) → List (List ℚ)
  | [] => []
  | (m, u) :: rest =>
      match compute f o m u with
      | .ok (est, o2) => est :: runSequence f o2 rest
      | .error _ => []

/-! ### Helper lemmas -/

/-- `setInitialState` never touches the sample time or the gain. -/
lemma setInitialState_ok_fields {o o2 : Observer} {v : List ℚ}
    (h : setInitialState o v = .ok o2) :
    o2.dSampleTime = o.dSampleTime ∧ o2.gain = o.gain ∧ o2.estimate = some v := by
  unfold setInitialState at h
  split at h
  · cases h
    exact ⟨rfl, rfl, rfl⟩
  · cases h

/-- `setGain` never touches the sample time or the estimate. -/
lemma setGain_ok_fields {o o2 : Observer} {v : List ℚ}
    (h : setGain o v = .ok o2) :
    o2.dSampleTime = o.dSampleTime ∧ o2.estimate = o.estimate ∧ o2.gain = v := by
  unfold setGain at h
  split at h
  · cases h
    exact ⟨rfl, rfl, rfl⟩
  · cases h

/-- `compute` never touches the sample time or the gain, and stores the
returned vector as the new estimate. -/
lemma compute_ok_fields {f : List ℚ → ℚ → List ℚ} {o : Observer}
    {m u : ℚ} {r : List ℚ × Observer} (h : compute f o m u = .ok r) :
    r.2.dSampleTime = o.dSampleTime ∧ r.2.gain = o.gain ∧
      r.2.estimate = some r.1 := by
  unfold compute at h
  split at h
  · cases h
  · cases h
    exact ⟨rfl, rfl, rfl⟩

/-- A single interface call leaves the sample time unchanged. -/
lemma applyOp_dSampleTime (f : List ℚ → ℚ → List ℚ) (o : Observer) (op : Op) :
    (applyOp f o op).dSampleTime = o.dSampleTime := by
  unfold applyOp
  cases hr : opResult f o op with
  | error e => rfl
  | ok o2 =>
      cases op with
      | opSetInitialState v => exact (setInitialState_ok_fields hr).1
      | opSetGain v => exact (setGain_ok_fields hr).1
      | opCompute m u =>
          cases hc : compute f o m u with
          | error e => simp [opResult, hc, Except.map] at hr
          | ok r =>
              simp only [opResult, hc, Except.map, Except.ok.injEq] at hr
              exact hr ▸ (compute_ok_fields hc).1

/-- A sequence of interface calls leaves the sample time unchanged. -/
lemma applyOps_dSampleTime (f : List ℚ → ℚ → List ℚ) (o : Observer)
    (ops : List Op) : (applyOps f o ops).dSampleTime = o.dSampleTime := by
  induction ops generalizing o with
  | nil => rfl
  | cons op rest ih =>
      simpa [applyOps, applyOp_dSampleTime] using
        (ih (applyOp f o op)).trans (applyOp_dSampleTime f o op)

/-- An interface call other than `setInitialState` cannot move the observer
out of the Uninitialized state. -/
lemma applyOp_estimate_none {f : List ℚ → ℚ → List ℚ} {o : Observer}
    {op : Op} (ho : o.estimate = none)
    (hop : ∀ v, op ≠ Op.opSetInitialState v) :
    (applyOp f o op).estimate = none := by
  unfold applyOp
  cases hr : opResult f o op with
  | error e => exact ho
  | ok o2 =>
      cases op with
      | opSetInitialState v => exact absurd rfl (hop v)
      | opSetGain v => exact (setGain_ok_fields hr).2.1.trans ho
      | opCompute m u =>
          have hc : compute f o m u = .error .UninitializedState := by
            unfold compute
            rw [ho]
          simp [opResult, hc, Except.map] at hr

/-- A sequence of interface calls containing no `setInitialState` cannot
move the observer out of the Uninitialized state. -/
lemma applyOps_estimate_none {f : List ℚ → ℚ → List ℚ} {o : Observer}
    {ops : List Op} (ho : o.estimate = none)
    (hops : ∀ v, Op.opSetInitialState v ∉ ops) :
    (applyOps f o ops).estimate = none := by
  induction ops generalizing o with
  | nil => exact ho
  | cons op rest ih =>
      refine ih (applyOp_estimate_none ho fun v hv => ?_)
          (fun v hv => hops v (List.mem_cons_of_mem _ hv))
      exact hops v (hv ▸ List.mem_cons_self _ _)

/-- With an all-zero gain vector the corrected derivative does not depend
on the innovation. -/
lemma correctedDerivative_zero_gain (deriv gain : List ℚ) (e1 e2 : ℚ)
    (hg : ∀ g ∈ gain, g = 0) :
    correctedDerivative deriv gain e1 = correctedDerivative deriv gain e2 := by
  induction deriv generalizing gain with
  | nil => rfl
  | cons d ds ih =>
      cases gain with
      | nil => rfl
      | cons g gs =>
          have hg0 : g = 0 := hg g (List.mem_cons_self _ _)
          simp only [correctedDerivative, List.zipWith_cons_cons, hg0,
            zero_mul, add_zero]
          exact congrArg _ (ih gs fun x hx => hg x (List.mem_cons_of_mem _ hx))

/-- With an all-zero gain vector that is at least as long as the state, the
corrected Euler step is exactly the open-loop Euler step. -/
lemma eulerStep_zero_gain (x deriv gain : List ℚ) (e T : ℚ)
    (hg : ∀ g ∈ gain, g = 0) (hlen : x.length ≤ gain.length) :
    eulerStep x (correctedDerivative deriv gain e) T
      = List.zipWith (fun xi d => xi + T * d) x deriv := by
  induction x generalizing deriv gain with
  | nil => rfl
  | cons a xs ih =>
      cases gain with
      | nil => exact absurd hlen (by simp)
      | cons g gs =>
          cases deriv with
          | nil => rfl
          | cons d ds =>
              have hg0 : g = 0 := hg g (List.mem_cons_self _ _)
              simp only [eulerStep, correctedDerivative,
                List.zipWith_cons_cons, hg0, zero_mul, add_zero]
              refine congrArg _ ?_
              exact ih ds gs (fun y hy => hg y (List.mem_cons_of_mem _ hy))
                (Nat.le_of_succ_le_succ hlen)

/-! ### Concrete fixtures used by the witnesses -/

/-- A sample pluggable plant-derivative function of (state, input). -/
def fTest : List ℚ → ℚ → List ℚ :=
  fun x u => [u - x.headD 0, x.headD 0 - x.getD 1 0]

/-- A sample Ready observer with nonzero gain. -/
def oTest : Observer :=
  { dSampleTime := 1/10, gain := [3, 2], estimate := some [1, 2] }

/-- A sample Ready observer with an all-zero gain vector. -/
def oZeroGain : Observer :=
  { dSampleTime := 1/2, gain := [0, 0], estimate := some [1, 2] }

/-! ### Claims -/

/-- C1: on a Ready observer, `compute(measuredHeightTank1, pumpVoltage)`
performs exactly the explicit-Euler observer update: with innovation
`e = measuredHeightTank1 - estimatedHeightTank1`, every state channel `i`
of the new estimate equals
`oldState[i] + sampleTime * (plantDerivative(oldState, input)[i] + gain[i] * e)`
(the correction reaching tank-1's channel `i = 0` and, through the gain
vector's second component, tank-2's channel), and the result is stored as
the new internal estimate and returned. -/
theorem compute_euler_update (f : List ℚ → ℚ → List ℚ) (o : Observer)
    (x : List ℚ) (m u : ℚ) (ho : o.estimate = some x)
    (hx : x.length = stateDim) (hg : o.gain.length = stateDim)
    (hf : (f x u).length = stateDim) :
    ∃ ns, compute f o m u = .ok (ns, { o with estimate := some ns }) ∧
      ns.length = stateDim ∧
      ∀ i < stateDim, ns.getD i 0 =
        x.getD i 0 + o.dSampleTime *
          ((f x u).getD i 0 + o.gain.getD i 0 * (m - x.getD 0 0)) := by
  obtain ⟨x0, x1, rfl⟩ := List.length_eq_two.mp hx
  obtain ⟨g0, g1, hgE⟩ := List.length_eq_two.mp hg
  obtain ⟨d0, d1, hfE⟩ := List.length_eq_two.mp hf
  refine ⟨[x0 + o.dSampleTime * (d0 + g0 * (m - x0)),
           x1 + o.dSampleTime * (d1 + g1 * (m - x0))], ?_, rfl, ?_⟩
  · unfold compute
    rw [ho]
    simp [eulerStep, correctedDerivative, hgE, hfE]
  · intro i hi
    rw [hgE, hfE]
    have hi2 : i < 2 := hi
    interval_cases i <;> simp [List.getD]

/-- C1 witness: the Euler-update theorem applied to a concrete Ready
observer, plant function and inputs. -/
theorem compute_euler_update_witness :
    ∃ ns, compute fTest oTest 5 6 = .ok (ns, { oTest with estimate := some ns }) ∧
      ns.length = stateDim ∧
      ∀ i < stateDim, ns.getD i 0 =
        ([1, 2] : List ℚ).getD i 0 + oTest.dSampleTime *
          ((fTest [1, 2] 6).getD i 0 +
            oTest.gain.getD i 0 * (5 - ([1, 2] : List ℚ).getD 0 0)) :=
  compute_euler_update fTest oTest [1, 2] 5 6 rfl (by decide) (by decide)
    (by decide)

/-- C2: with sample time 1, initial state [0, 0], gain [0, 0] and the zero
plant-derivative function, one call `compute(0, 0)` returns [0, 0] and
leaves the internal state at [0, 0]. -/
theorem compute_concrete_scenario :
    compute (fun _ _ => [0, 0])
        { dSampleTime := 1, gain := [0, 0], estimate := some [0, 0] } 0 0
      = .ok ([0, 0],
          { dSampleTime := 1, gain := [0, 0], estimate := some [0, 0] }) := by
  unfold compute
  norm_num [eulerStep, correctedDerivative]

/-- C3: on a Ready observer every `compute` call returns a sequence of
exactly two scalars, in the fixed order of tank-1 then tank-2 estimate,
and the internal state after the call equals the returned sequence. -/
theorem compute_two_element_result (f : List ℚ → ℚ → List ℚ) (o : Observer)
    (x : List ℚ) (m u : ℚ) (ho : o.estimate = some x)
    (hx : x.length = stateDim) (hg : o.gain.length = stateDim)
    (hf : (f x u).length = stateDim) :
    ∃ h1 h2, compute f o m u
      = .ok ([h1, h2], { o with estimate := some [h1, h2] }) := by
  obtain ⟨x0, x1, rfl⟩ := List.length_eq_two.mp hx
  obtain ⟨g0, g1, hgE⟩ := List.length_eq_two.mp hg
  obtain ⟨d0, d1, hfE⟩ := List.length_eq_two.mp hf
  refine ⟨x0 + o.dSampleTime * (d0 + g0 * (m - x0)),
          x1 + o.dSampleTime * (d1 + g1 * (m - x0)), ?_⟩
  unfold compute
  rw [ho]
  simp [eulerStep, correctedDerivative, hgE, hfE]

/-- C3 witness: the two-element-result theorem applied to a concrete Ready
observer, plant function and inputs. -/
theorem compute_two_element_result_witness :
    ∃ h1 h2, compute fTest oTest 5 6
      = .ok ([h1, h2], { oTest with estimate := some [h1, h2] }) :=
  compute_two_element_result fTest oTest [1, 2] 5 6 rfl (by decide)
    (by decide) (by decide)

/-- C4: `compute` is deterministic: observers with identical sample time,
gain and internal state produce identical results and successor states on
identical arguments, and hence identical estimate sequences over any fixed
sequence of (measurement, input) pairs. -/
theorem compute_deterministic (f : List ℚ → ℚ → List ℚ) (o1 o2 : Observer)
    (hT : o1.dSampleTime = o2.dSampleTime) (hg : o1.gain = o2.gain)
    (he : o1.estimate = o2.estimate) (m u : ℚ) :
    compute f o1 m u = compute f o2 m u ∧
    ∀ seq : List (ℚ × ℚ), runSequence f o1 seq = runSequence f o2 seq := by
  have h12 : o1 = o2 := by
    cases o1
    cases o2
    simp_all
  subst h12
  exact ⟨rfl, fun _ => rfl⟩

/-- C4 witness: determinism applied to two identically configured concrete
observers. -/
theorem compute_deterministic_witness :
    compute fTest oTest 1 2 = compute fTest oTest 1 2 ∧
    ∀ seq : List (ℚ × ℚ), runSequence fTest oTest seq
      = runSequence fTest oTest seq :=
  compute_deterministic fTest oTest oTest rfl rfl rfl 1 2

/-- C5: zero-gain passivity: with an all-zero gain vector, `compute`
ignores the measurement (any two measurement values give the same result
and successor state) and equals open-loop explicit-Euler integration of
the plant model from the current estimate. -/
theorem zero_gain_passivity (f : List ℚ → ℚ → List ℚ) (o : Observer)
    (x : List ℚ) (m1 m2 u : ℚ) (hg0 : ∀ g ∈ o.gain, g = 0)
    (ho : o.estimate = some x) (hlen : x.length ≤ o.gain.length) :
    compute f o m1 u = compute f o m2 u ∧
    compute f o m1 u = .ok (openLoopEulerStep f x u o.dSampleTime,
      { o with estimate := some (openLoopEulerStep f x u o.dSampleTime) }) := by
  constructor
  · unfold compute
    rw [ho]
    dsimp only
    rw [correctedDerivative_zero_gain (f x u) o.gain (m1 - x.headD 0)
      (m2 - x.headD 0) hg0]
  · unfold compute
    rw [ho]
    dsimp only
    rw [eulerStep_zero_gain x (f x u) o.gain (m1 - x.headD 0) o.dSampleTime
      hg0 hlen]
    rfl

/-- C5 witness: zero-gain passivity applied to a concrete zero-gain Ready
observer and two different measurement values. -/
theorem zero_gain_passivity_witness :
    compute fTest oZeroGain 3 5 = compute fTest oZeroGain 4 5 :=
  (zero_gain_passivity fTest oZeroGain [1, 2] 3 4 5 (by decide) rfl
    (by decide)).1

/-- C6: `compute` before any `setInitialState` call (after any sequence of
other interface calls on a fresh observer) fails with `UninitializedState`;
`setGain` with a vector whose length is not the state dimension 2 fails
with `InvalidArgument`; so does `setInitialState`. -/
theorem error_conditions (f : List ℚ → ℚ → List ℚ) (o : Observer)
    (ops : List Op) (g v : List ℚ) (m u : ℚ)
    (hops : ∀ w, Op.opSetInitialState w ∉ ops)
    (hg : g.length ≠ stateDim) (hv : v.length ≠ stateDim) :
    compute f (applyOps f Observer.new ops) m u
      = .error .UninitializedState ∧
    setGain o g = .error .InvalidArgument ∧
    setInitialState o v = .error .InvalidArgument := by
  refine ⟨?_, ?_, ?_⟩
  · have hnone : (applyOps f Observer.new ops).estimate = none :=
      applyOps_estimate_none rfl hops
    unfold compute
    rw [hnone]
  · unfold setGain
    exact if_neg hg
  · unfold setInitialState
    exact if_neg hv

/-- C6 witness: the three error conditions at concrete bad inputs, the
uninitialized observer reached by a fresh construction followed by a
`setGain` and a failing `compute`. -/
theorem error_conditions_witness :
    compute fTest
        (applyOps fTest Observer.new [Op.opSetGain [5, 6], Op.opCompute 1 2])
        0 0
      = .error .UninitializedState ∧
    setGain Observer.new [] = .error .InvalidArgument ∧
    setInitialState Observer.new [1, 2, 3] = .error .InvalidArgument :=
  error_conditions fTest Observer.new
    [Op.opSetGain [5, 6], Op.opCompute 1 2] [] [1, 2, 3] 0 0
    (by intro w hw; simp at hw) (by decide) (by decide)

/-- C7: atomicity on failure: every interface call either fully succeeds
and installs exactly the mutated observer, or fails with an error and
leaves the observer (estimate, gain, sample time) exactly as it was. -/
theorem call_atomicity (f : List ℚ → ℚ → List ℚ) (o : Observer) (op : Op) :
    (∃ o2, opResult f o op = .ok o2 ∧ applyOp f o op = o2) ∨
    (∃ e, opResult f o op = .error e ∧ applyOp f o op = o) := by
  cases hr : opResult f o op with
  | ok o2 => exact .inl ⟨o2, rfl, by simp [applyOp, hr]⟩
  | error e => exact .inr ⟨e, rfl, by simp [applyOp, hr]⟩

/-- C8: the sample time is never changed by any sequence of interface
calls, and hence stays positive once a positive value has been set. -/
theorem sample_time_immutable (f : List ℚ → ℚ → List ℚ) (o : Observer)
    (ops : List Op) :
    (applyOps f o ops).dSampleTime = o.dSampleTime ∧
    (0 < o.dSampleTime → 0 < (applyOps f o ops).dSampleTime) := by
  refine ⟨applyOps_dSampleTime f o ops, fun h => ?_⟩
  rw [applyOps_dSampleTime f o ops]
  exact h

/-- C8 witness: a positive sample time survives a concrete sequence of
interface calls. -/
theorem sample_time_immutable_witness :
    0 < (applyOps fTest
      { dSampleTime := 1, gain := [0, 0], estimate := none }
      [Op.opSetGain [2, 3], Op.opSetInitialState [1, 1],
        Op.opCompute 4 5]).dSampleTime :=
  (sample_time_immutable fTest
    { dSampleTime := 1, gain := [0, 0], estimate := none }
    [Op.opSetGain [2, 3], Op.opSetInitialState [1, 1],
      Op.opCompute 4 5]).2 (by decide)

/-- C9: frame effects: a successful `setInitialState` replaces only the
estimate, leaving gain and sample time unchanged; a successful `setGain`
replaces only the gain, leaving estimate and sample time unchanged; and
`compute` never modifies the gain (or the sample time). -/
theorem config_frame_effects (f : List ℚ → ℚ → List ℚ) (o : Observer)
    (v g : List ℚ) (m u : ℚ) :
    (∀ o2, setInitialState o v = .ok o2 →
      o2.gain = o.gain ∧ o2.dSampleTime = o.dSampleTime ∧
        o2.estimate = some v) ∧
    (∀ o2, setGain o g = .ok o2 →
      o2.estimate = o.estimate ∧ o2.dSampleTime = o.dSampleTime ∧
        o2.gain = g) ∧
    (∀ r, compute f o m u = .ok r →
      r.2.gain = o.gain ∧ r.2.dSampleTime = o.dSampleTime) := by
  refine ⟨fun o2 h => ?_, fun o2 h => ?_, fun r h => ?_⟩
  · obtain ⟨h1, h2, h3⟩ := setInitialState_ok_fields h
    exact ⟨h2, h1, h3⟩
  · obtain ⟨h1, h2, h3⟩ := setGain_ok_fields h
    exact ⟨h2, h1, h3⟩
  · exact ⟨(compute_ok_fields h).2.1, (compute_ok_fields h).1⟩

/-- C9 witness: the frame-effect theorem applied to a concrete successful
`setInitialState` call: the gain is untouched. -/
theorem config_frame_effects_witness :
    ∃ o2, setInitialState oTest [4, 5] = .ok o2 ∧ o2.gain = oTest.gain :=
  ⟨{ oTest with estimate := some [4, 5] }, rfl,
    ((config_frame_effects fTest oTest [4, 5] [3, 4] 0 0).1
      { oTest with estimate := some [4, 5] } rfl).1⟩

/-- C10: a freshly constructed observer has `dSampleTime = 0.0`, and since
none of the three declared interface operations (captured exhaustively by
`Op`, with exactly the declared arguments, none of them a sample time)
changes the sample time, no sequence of interface calls can ever establish
a positive sample time on it: it stays 0. -/
theorem sample_time_unreachable_via_interface (f : List ℚ → ℚ → List ℚ)
    (ops : List Op) :
    Observer.new.dSampleTime = 0 ∧
    (applyOps f Observer.new ops).dSampleTime = 0 :=
  ⟨rfl, (applyOps_dSampleTime f Observer.new ops).trans rfl⟩

end TankObserver
